import Mathlib

/-!
Shallow embedding of the nuber-eats backend CRUD surface.

The restaurant service (`src/restaurant/restaurants.service.ts`) and the two
revisions of the email service (`src/email/email.service.ts` and the revision
appended to the restaurant service file) are translated into pure Lean
functions over an explicit relational store.  TypeORM repositories become
lists of entity rows; `findOne` becomes a list lookup; `save` of a partial
entity becomes a field-wise merge; a thrown storage exception becomes an
explicit failure flag consumed by the service's catch block.  The parts of
the repository that are not among the provided sources (the users service's
`verifyEmail` and `CategoryRepository.getOrCreate`) are modelled from the
specification and are marked as such on their definitions.
-/

namespace NuberEats

/-- `User` entity: only the field the restaurant service reads (`owner.id`). -/
structure User where
  id : Nat
deriving DecidableEq

/-- `Category` entity: id, human name, and the slug derived from the name. -/
structure Category where
  id : Nat
  name : String
  slug : String
deriving DecidableEq

/-- `Restaurant` entity.  `ownerId` and `categoryId` are the relation ids
(the service loads them with `loadRelationIds` and compares `owner.id` to
`restaurant.ownerId`). -/
structure Restaurant where
  id : Nat
  name : String
  coverImg : String
  address : String
  ownerId : Nat
  categoryId : Nat
deriving DecidableEq

/-- The relational store the restaurant service works against: the
`restaurants` and `categories` repositories plus the id sequences the
database would use for inserts. -/
structure DB where
  restaurants : List Restaurant
  categories : List Category
  nextRestaurantId : Nat
  nextCategoryId : Nat
deriving DecidableEq

/-- `CreateRestaurantInput` dto: name, coverImg, address, categoryName. -/
structure CreateRestaurantInput where
  name : String
  coverImg : String
  address : String
  categoryName : String
deriving DecidableEq

/-- `CreateResaurantOutput` dto (typo kept from the source). -/
structure CreateResaurantOutput where
  ok : Bool
  err : Option String
deriving DecidableEq

/-- `EditRestaurantInput` dto: the target restaurant id plus the optional
fields of the partial update (absent fields are not written). -/
structure EditRestaurantInput where
  restaurantId : Nat
  name : Option String
  coverImg : Option String
  address : Option String
  categoryName : Option String
deriving DecidableEq

/-- `EditRestaurantOutput` dto. -/
structure EditRestaurantOutput where
  ok : Bool
  err : Option String
deriving DecidableEq

/-- `DeleteRestaurantOutput` dto. -/
structure DeleteRestaurantOutput where
  ok : Bool
  err : Option String
deriving DecidableEq

/-- `RestaurantsOutput` dto: envelope plus the page of results and counts. -/
structure RestaurantsOutput where
  ok : Bool
  err : Option String
  results : Option (List Restaurant)
  totalPages : Option Nat
  totalResults : Option Nat
deriving DecidableEq

/-- `CategoryOutput` dto.  The source attaches the paginated restaurants to
`category.restaurants`; the embedding carries them in a field of their own. -/
structure CategoryOutput where
  ok : Bool
  err : Option String
  category : Option Category
  restaurants : Option (List Restaurant)
  totalPages : Option Nat
deriving DecidableEq

/-- `RestaurantOutput` dto. -/
structure RestaurantOutput where
  ok : Bool
  err : Option String
  restaurant : Option Restaurant
deriving DecidableEq

/-- `SearchRestaurantOutput` dto. -/
structure SearchRestaurantOutput where
  ok : Bool
  err : Option String
  restaurants : Option (List Restaurant)
  totalResults : Option Nat
  totalPages : Option Nat
deriving DecidableEq

/-- Modelled from the spec: `CategoryRepository` is not among the provided
sources (only its call sites in `RestaurantService` are).  The spec says the
slug is derived from the name, lowercased, with spaces replaced by dashes. -/
def slugOf (name : String) : String :=
  String.mk (name.data.map (fun c => if c.toLower == ' ' then '-' else c.toLower))

/-- Modelled from the spec: `getOrCreate(name)` normalizes the name to a
slug, returns the existing category row on a slug match, and otherwise
inserts a new row. -/
def getOrCreate (categoryName : String) (db : DB) : Category × DB :=
  let slug := slugOf categoryName
  match db.categories.find? (fun c => c.slug == slug) with
  | some category => (category, db)
  | none =>
    let category : Category := { id := db.nextCategoryId, name := categoryName, slug := slug }
    (category,
     { db with
        categories := db.categories ++ [category],
        nextCategoryId := db.nextCategoryId + 1 })

/-- `this.restaurants.findOne(restaurantId)`: the row with the given primary
key, if any. -/
def findOne (restaurants : List Restaurant) (restaurantId : Nat) : Option Restaurant :=
  restaurants.find? (fun r => r.id == restaurantId)

/-- `RestaurantService.createRestaurant`.  The two storage steps
(`categories.getOrCreate` and `restaurants.save`) may throw; a throwing step
is modelled by its flag, and the service's catch block turns either throw
into the one generic envelope.  `getOrCreate` runs before `save`, so a
failing save leaves the category row behind (the source wraps nothing in a
transaction). -/
def createRestaurant (owner : User) (input : CreateRestaurantInput) (db : DB)
    (getOrCreateThrows saveThrows : Bool) : CreateResaurantOutput × DB :=
  if getOrCreateThrows then
    ({ ok := false, err := some "Could not create restaurant" }, db)
  else
    let step := getOrCreate input.categoryName db
    if saveThrows then
      ({ ok := false, err := some "Could not create restaurant" }, step.2)
    else
      let newRestaurant : Restaurant :=
        { id := step.2.nextRestaurantId, name := input.name, coverImg := input.coverImg,
          address := input.address, ownerId := owner.id, categoryId := step.1.id }
      ({ ok := true, err := none },
       { step.2 with
          restaurants := step.2.restaurants ++ [newRestaurant],
          nextRestaurantId := step.2.nextRestaurantId + 1 })

/-- The row written by `editRestaurant`'s save: the found restaurant with
every supplied input field overwritten and, when a category was resolved,
the new category id (TypeORM merges only the supplied columns). -/
def mergeEdit (restaurant : Restaurant) (input : EditRestaurantInput)
    (category : Option Category) : Restaurant :=
  { restaurant with
      name := input.name.getD restaurant.name,
      coverImg := input.coverImg.getD restaurant.coverImg,
      address := input.address.getD restaurant.address,
      categoryId :=
        match category with
        | some c => c.id
        | none => restaurant.categoryId }

/-- `RestaurantService.editRestaurant`: look the restaurant up, refuse when
absent or when the caller is not the owner, resolve the category only when a
new category name is supplied, then save the partial merge. -/
def editRestaurant (owner : User) (input : EditRestaurantInput) (db : DB) :
    EditRestaurantOutput × DB :=
  match findOne db.restaurants input.restaurantId with
  | none => ({ ok := false, err := some "Restaurant not found" }, db)
  | some restaurant =>
    if owner.id != restaurant.ownerId then
      ({ ok := false, err := some "You can\x27t edit a restaurant that you don\x27t own" }, db)
    else
      let step :
          Option Category × DB :=
        match input.categoryName with
        | some categoryName =>
          let got := getOrCreate categoryName db
          (some got.1, got.2)
        | none => (none, db)
      let updated := mergeEdit restaurant input step.1
      ({ ok := true, err := none },
       { step.2 with
          restaurants :=
            step.2.restaurants.map
              (fun r => if r.id == input.restaurantId then updated else r) })

/-- `RestaurantService.deleteRestaurant`: look the restaurant up, refuse when
absent or when the caller is not the owner, then delete by id. -/
def deleteRestaurant (owner : User) (restaurantId : Nat) (db : DB) :
    DeleteRestaurantOutput × DB :=
  match findOne db.restaurants restaurantId with
  | none => ({ ok := false, err := some "Restaurant not found" }, db)
  | some restaurant =>
    if owner.id != restaurant.ownerId then
      ({ ok := false, err := some "You can\x27t delete a restaurant that you don\x27t own" }, db)
    else
      ({ ok := true, err := none },
       { db with restaurants := db.restaurants.filter (fun r => !(r.id == restaurantId)) })

/-- The `skip`/`take` window the service passes to `find`/`findAndCount`:
skip the first `(page - 1) * 25` rows, take `25`. -/
def paginate (rows : List Restaurant) (page : Nat) : List Restaurant :=
  (rows.drop ((page - 1) * 25)).take 25

/-- `Math.ceil(totalResults / 25)` on a natural count. -/
def ceilPages (totalResults : Nat) : Nat :=
  (totalResults + 24) / 25

/-- `RestaurantService.countRestaurants`: rows whose category relation is the
given category. -/
def countRestaurants (db : DB) (category : Category) : Nat :=
  (db.restaurants.filter (fun r => r.categoryId == category.id)).length

/-- `RestaurantService.findCategoryBySlug`: look the category up by slug,
attach the 25-row page of its restaurants, and report the page count of the
total matching count. -/
def findCategoryBySlug (slug : String) (page : Nat) (db : DB) : CategoryOutput :=
  match db.categories.find? (fun c => c.slug == slug) with
  | none =>
    { ok := false, err := some "Category not found",
      category := none, restaurants := none, totalPages := none }
  | some category =>
    let restaurants :=
      paginate (db.restaurants.filter (fun r => r.categoryId == category.id)) page
    let totalResults := countRestaurants db category
    { ok := true, err := none, category := some category,
      restaurants := some restaurants, totalPages := some (ceilPages totalResults) }

/-- `RestaurantService.allResturants` (typo kept from the source):
`findAndCount` with the 25-row window; `totalResults` is the full row count,
not the page length. -/
def allResturants (page : Nat) (db : DB) : RestaurantsOutput :=
  let restaurants := paginate db.restaurants page
  let totalResults := db.restaurants.length
  { ok := true, err := none, results := some restaurants,
    totalPages := some (ceilPages totalResults), totalResults := some totalResults }

/-- `RestaurantService.findRestaurantById`: single lookup, envelope when
absent; reads only, writes nothing. -/
def findRestaurantById (restaurantId : Nat) (db : DB) : RestaurantOutput :=
  match findOne db.restaurants restaurantId with
  | none => { ok := false, err := some "Restaurant not found", restaurant := none }
  | some restaurant => { ok := true, err := none, restaurant := some restaurant }

/-- SQL `ILIKE` pattern matching, folded to lower case character by
character: `%` matches any run of characters, `_` matches one character, the
default escape character backslash makes the following pattern character
match literally (still case-insensitively), and any other pattern character
matches case-insensitively.  A pattern ending in a dangling escape is an
error in Postgres; it is modelled as matching nothing, and it cannot arise
from the service, whose patterns always end in the appended `%`. -/
def likeMatches : List Char → List Char → Bool
  | [], text => text.isEmpty
  | p :: ps, text =>
    if p = '%' then text.tails.any (fun s => likeMatches ps s)
    else if p = '\\' then
      match ps, text with
      | [], [] => false
      | [], _ :: _ => false
      | _ :: _, [] => false
      | e :: ps2, t :: ts => (e.toLower == t.toLower) && likeMatches ps2 ts
    else
      match text with
      | [] => false
      | t :: ts => (p == '_' || p.toLower == t.toLower) && likeMatches ps ts

/-- The `where` clause of `searchRestaurantByName`:
`name ILIKE '%<query>%'`. -/
def nameMatchesQuery (query : String) (r : Restaurant) : Bool :=
  likeMatches ('%' :: (query.data ++ ['%'])) r.name.data

/-- `RestaurantService.searchRestaurantByName`: `findAndCount` over the
`ILIKE '%query%'` filter with the 25-row window.  The source's
`if (!restaurants)` guard can never fire (`findAndCount` always returns an
array, and an array is truthy even when empty), so the embedding has no
corresponding branch: an empty match is reported as a success. -/
def searchRestaurantByName (query : String) (page : Nat) (db : DB) :
    SearchRestaurantOutput :=
  let matching := db.restaurants.filter (nameMatchesQuery query)
  let restaurants := paginate matching page
  let totalResults := matching.length
  { ok := true, err := none, restaurants := some restaurants,
    totalResults := some totalResults, totalPages := some (ceilPages totalResults) }

/-- Case-insensitive "starts with" on character lists. -/
def startsWithCI : List Char → List Char → Bool
  | [], _ => true
  | _ :: _, [] => false
  | q :: qs, t :: ts => (q.toLower == t.toLower) && startsWithCI qs ts

/-- Case-insensitive "contains" on character lists: some suffix of the text
starts with the query. -/
def containsCI : List Char → List Char → Bool
  | qs, [] => qs.isEmpty
  | qs, t :: ts => startsWithCI qs (t :: ts) || containsCI qs ts

/-- Modelled from the spec: the users service is not among the provided
sources (only its e2e test is), so the account store is modelled from the
spec's data model: an `Account` has a verified flag, and a `Verification`
belongs to exactly one account and holds a single-use code. -/
structure Account where
  id : Nat
  email : String
  verified : Bool
deriving DecidableEq

/-- Modelled from the spec: a `Verification` row. -/
structure Verification where
  code : String
  accountId : Nat
deriving DecidableEq

/-- Modelled from the spec: the account-side store. -/
structure AccountDB where
  accounts : List Account
  verifications : List Verification
deriving DecidableEq

/-- The uniform envelope of the account operations. -/
structure VerifyEmailOutput where
  ok : Bool
  err : Option String
deriving DecidableEq

/-- Modelled from the spec: `verifyEmail(code)` fails with `NotFound` when
the code is unknown; otherwise it marks the owning account verified and
deletes the Verification record. -/
def verifyEmail (code : String) (db : AccountDB) : VerifyEmailOutput × AccountDB :=
  match db.verifications.find? (fun v => v.code == code) with
  | none => ({ ok := false, err := some "Verification not found." }, db)
  | some verification =>
    ({ ok := true, err := none },
     { accounts :=
         db.accounts.map
           (fun a => if a.id == verification.accountId then { a with verified := true } else a),
       verifications := db.verifications.filter (fun v => !(v.code == code)) })

/-- An `EmailVar` (`email.interface.ts`): a template variable key and value. -/
structure EmailVar where
  key : String
  value : String
deriving DecidableEq

/-- `EmailModuleOptions`: the fields `sendEmail` reads. -/
structure EmailModuleOptions where
  apiKey : String
  domain : String
deriving DecidableEq

/-- The form `sendEmail` posts to the provider: the `from`, `to`, `subject`
and `template` fields plus one `v:<key>` entry per template variable. -/
structure MailForm where
  fromAddr : String
  toAddr : String
  subject : String
  template : String
  vars : List (String × String)
deriving DecidableEq

/-- The form both revisions of `sendEmail` build, field by field as in the
source: the sender is built from the configured domain, and the recipient is
the hardcoded string given in the source, not a parameter. -/
def buildForm (options : EmailModuleOptions) (subject template : String)
    (emailVars : List EmailVar) : MailForm :=
  { fromAddr := "Nico from Nuber Eats <mailgun@" ++ options.domain ++ ">",
    toAddr := "012h21l@gmail.com",
    subject := subject,
    template := template,
    vars := emailVars.map (fun eVar => ("v:" ++ eVar.key, eVar.value)) }

/-- The outcome of the provider POST, supplied by the environment: either
the request went through or it raised with some error. -/
def PostOutcome : Type := MailForm → Except String Unit

/-- First revision (`src/email/email.service.ts`): the POST is awaited
inside a try/catch whose catch only logs; nothing is returned to the caller.
The result is the unit value together with what was logged. -/
def sendEmailLogged (options : EmailModuleOptions) (subject template : String)
    (emailVars : List EmailVar) (post : PostOutcome) : Unit × Option String :=
  match post (buildForm options subject template emailVars) with
  | Except.ok _ => ((), none)
  | Except.error e => ((), some e)

/-- Second revision (appended to `restaurants.service.ts`): the POST is
awaited inside a try/catch that returns `true` on success and `false` when
the provider raised. -/
def sendEmailBool (options : EmailModuleOptions) (subject template : String)
    (emailVars : List EmailVar) (post : PostOutcome) : Bool :=
  match post (buildForm options subject template emailVars) with
  | Except.ok _ => true
  | Except.error _ => false

/-- `sendVerificationEmail(email, code)` (identical in both revisions):
calls `sendEmail` with the fixed subject and template and the two template
variables, does not await it, and discards its value. -/
def sendVerificationEmail (options : EmailModuleOptions) (email code : String)
    (post : PostOutcome) : Unit :=
  let result :=
    sendEmailBool options "Verify Your Email" "confirm_email"
      [{ key := "code", value := code }, { key := "username", value := email }] post
  let _ := result
  ()

/-- The form posted by `sendVerificationEmail(email, code)`. -/
def verificationForm (options : EmailModuleOptions) (email code : String) : MailForm :=
  buildForm options "Verify Your Email" "confirm_email"
    [{ key := "code", value := code }, { key := "username", value := email }]

/-! ### Helper lemmas -/

theorem startsWithCI_nil (qs : List Char) : startsWithCI qs [] = qs.isEmpty := by
  cases qs <;> rfl

theorem likeMatches_nil_left (text : List Char) : likeMatches [] text = text.isEmpty := by
  rw [likeMatches]

theorem likeMatches_percent (ps text : List Char) :
    likeMatches ('%' :: ps) text = text.tails.any (fun s => likeMatches ps s) := by
  cases ps with
  | nil =>
    cases text with
    | nil => rw [likeMatches]; rw [if_pos rfl]
    | cons t ts => rw [likeMatches]; rw [if_pos rfl]
  | cons p2 ps2 =>
    cases text with
    | nil => rw [likeMatches]; rw [if_pos rfl]
    | cons t ts => rw [likeMatches]; rw [if_pos rfl]

theorem likeMatches_single_percent (text : List Char) : likeMatches ['%'] text = true := by
  rw [likeMatches_percent, List.any_eq_true]
  refine ⟨[], ?_, by rw [likeMatches_nil_left]; rfl⟩
  induction text with
  | nil => simp
  | cons t ts ih => simp [List.tails, ih]

theorem likeMatches_append_percent (qs : List Char)
    (hq : ∀ c ∈ qs, c ≠ '%' ∧ c ≠ '_' ∧ c ≠ '\\') (text : List Char) :
    likeMatches (qs ++ ['%']) text = startsWithCI qs text := by
  induction qs generalizing text with
  | nil =>
    rw [List.nil_append, likeMatches_single_percent]
    rfl
  | cons q qs ih =>
    obtain ⟨hq1, hq2, hq3⟩ := hq q (by simp)
    have hrest : ∀ c ∈ qs, c ≠ '%' ∧ c ≠ '_' ∧ c ≠ '\\' :=
      fun c hc => hq c (by simp [hc])
    have hqu : (q == '_') = false := by simpa using hq2
    rw [List.cons_append]
    cases qs with
    | nil =>
      cases text with
      | nil =>
        rw [startsWithCI_nil, likeMatches.eq_def]
        dsimp only
        rw [if_neg hq1, if_neg hq3]
        rfl
      | cons t ts =>
        rw [likeMatches.eq_def]
        dsimp only
        rw [if_neg hq1, if_neg hq3]
        rw [List.nil_append, likeMatches_single_percent]
        show ((q == '_' || q.toLower == t.toLower) && true) = _
        rw [hqu, Bool.false_or, Bool.and_true]
        show _ = ((q.toLower == t.toLower) && startsWithCI [] ts)
        rw [startsWithCI, Bool.and_true]
    | cons q2 qs2 =>
      cases text with
      | nil =>
        rw [startsWithCI_nil, likeMatches.eq_def]
        dsimp only
        rw [if_neg hq1, if_neg hq3]
        rfl
      | cons t ts =>
        rw [likeMatches.eq_def]
        dsimp only
        rw [if_neg hq1, if_neg hq3]
        rw [ih hrest ts]
        rw [hqu, Bool.false_or]
        rfl

theorem containsCI_eq_any_tails (qs text : List Char) :
    containsCI qs text = text.tails.any (fun s => startsWithCI qs s) := by
  induction text with
  | nil => simp [containsCI, startsWithCI_nil]
  | cons t ts ih =>
    show (startsWithCI qs (t :: ts) || containsCI qs ts) = _
    rw [ih]
    simp [List.tails]

theorem likeMatches_contains (qs : List Char)
    (hq : ∀ c ∈ qs, c ≠ '%' ∧ c ≠ '_' ∧ c ≠ '\\') (text : List Char) :
    likeMatches ('%' :: (qs ++ ['%'])) text = containsCI qs text := by
  rw [likeMatches_percent, containsCI_eq_any_tails]
  refine congrArg _ (funext fun s => ?_)
  exact likeMatches_append_percent qs hq s

theorem startsWithCI_iff (qs text : List Char) :
    startsWithCI qs text = true ↔
      ∃ rest, text.map Char.toLower = qs.map Char.toLower ++ rest := by
  induction qs generalizing text with
  | nil =>
    constructor
    · intro h
      exact ⟨text.map Char.toLower, rfl⟩
    · intro h
      rfl
  | cons q qs ih =>
    cases text with
    | nil =>
      simp only [startsWithCI_nil]
      constructor
      · intro h
        exact absurd h (by simp)
      · rintro ⟨rest, h⟩
        exact absurd h (by simp)
    | cons t ts =>
      show ((q.toLower == t.toLower) && startsWithCI qs ts) = true ↔ _
      rw [Bool.and_eq_true, beq_iff_eq, ih]
      constructor
      · rintro ⟨h1, rest, h2⟩
        exact ⟨rest, by simp [h1, h2]⟩
      · rintro ⟨rest, h⟩
        simp only [List.map_cons, List.cons_append, List.cons.injEq] at h
        exact ⟨h.1.symm, rest, h.2⟩

theorem containsCI_iff (qs text : List Char) :
    containsCI qs text = true ↔
      ∃ pre post, text.map Char.toLower = pre ++ qs.map Char.toLower ++ post := by
  induction text with
  | nil =>
    simp only [containsCI]
    constructor
    · intro h
      refine ⟨[], [], ?_⟩
      cases qs with
      | nil => rfl
      | cons q qs => exact absurd h (by simp)
    · rintro ⟨pre, post, h⟩
      have hnil : qs = [] := by
        cases qs with
        | nil => rfl
        | cons q qs => simp at h
      simp [hnil]
  | cons t ts ih =>
    show ((startsWithCI qs (t :: ts) || containsCI qs ts) = true) ↔ _
    rw [Bool.or_eq_true, startsWithCI_iff, ih]
    constructor
    · rintro (⟨rest, h⟩ | ⟨pre, post, h⟩)
      · exact ⟨[], rest, by simpa using h⟩
      · exact ⟨t.toLower :: pre, post, by simp [h]⟩
    · rintro ⟨pre, post, h⟩
      cases pre with
      | nil => exact Or.inl ⟨post, by simpa using h⟩
      | cons p pre =>
        simp only [List.map_cons, List.cons_append, List.cons.injEq] at h
        exact Or.inr ⟨pre, post, h.2⟩

theorem le_mul_ceilPages (n : Nat) : n ≤ 25 * ceilPages n := by
  have h := Nat.div_add_mod (n + 24) 25
  have h2 : (n + 24) % 25 < 25 := Nat.mod_lt _ (by norm_num)
  unfold ceilPages
  omega

theorem ceilPages_le (n k : Nat) (h : n ≤ 25 * k) : ceilPages n ≤ k := by
  have h4 : (n + 24) / 25 < k + 1 := by
    rw [Nat.div_lt_iff_lt_mul (by norm_num)]
    omega
  unfold ceilPages
  omega

theorem ceilPages_eq_ceil (n : Nat) : ceilPages n = ⌈(n : ℚ) / 25⌉₊ := by
  apply le_antisymm
  · have h1 : (n : ℚ) / 25 ≤ (⌈(n : ℚ) / 25⌉₊ : ℚ) := Nat.le_ceil _
    have h2 : (n : ℚ) ≤ 25 * (⌈(n : ℚ) / 25⌉₊ : ℚ) := by
      rw [div_le_iff₀ (by norm_num)] at h1
      linarith
    have h3 : n ≤ 25 * ⌈(n : ℚ) / 25⌉₊ := by exact_mod_cast h2
    exact ceilPages_le n _ h3
  · rw [Nat.ceil_le, div_le_iff₀ (by norm_num)]
    have h3 : (n : ℕ) ≤ ceilPages n * 25 := by
      have := le_mul_ceilPages n
      omega
    exact_mod_cast Nat.cast_le.mpr h3

/-! ### Sample rows used by the witnesses -/

/-- A sample caller. -/
def aCaller : User := { id := 1 }

/-- A sample restaurant owned by account 2. -/
def aRestaurant : Restaurant :=
  { id := 5, name := "Bob Pizza", coverImg := "img", address := "addr",
    ownerId := 2, categoryId := 3 }

/-- A sample store holding that restaurant and its category. -/
def aDB : DB :=
  { restaurants := [aRestaurant],
    categories := [{ id := 3, name := "pizza", slug := "pizza" }],
    nextRestaurantId := 6, nextCategoryId := 4 }

/-- A sample edit input naming the sample restaurant and supplying no field. -/
def anEditInput : EditRestaurantInput :=
  { restaurantId := 5, name := none, coverImg := none, address := none,
    categoryName := none }

/-- An edit input naming a restaurant id absent from `aDB`. -/
def aMissingEditInput : EditRestaurantInput :=
  { restaurantId := 999, name := none, coverImg := none, address := none,
    categoryName := none }

/-! ### Claim theorems -/

/-- Claim C1: for every caller and every existing restaurant, if the caller's
id differs from the restaurant's ownerId, then editRestaurant and
deleteRestaurant return an envelope with ok = false and a non-null err, and
the store — so in particular the stored restaurant — is unchanged (not
edited, not deleted). -/
theorem claimC1_only_owner_may_mutate (owner : User) (input : EditRestaurantInput)
    (db : DB) (restaurant : Restaurant)
    (hfind : findOne db.restaurants input.restaurantId = some restaurant)
    (hown : owner.id ≠ restaurant.ownerId) :
    (editRestaurant owner input db).1.ok = false ∧
    (editRestaurant owner input db).1.err ≠ none ∧
    (editRestaurant owner input db).2 = db ∧
    (deleteRestaurant owner input.restaurantId db).1.ok = false ∧
    (deleteRestaurant owner input.restaurantId db).1.err ≠ none ∧
    (deleteRestaurant owner input.restaurantId db).2 = db := by
  have hbne : (owner.id != restaurant.ownerId) = true := by simpa using hown
  refine ⟨?_, ?_, ?_, ?_, ?_, ?_⟩ <;>
    simp [editRestaurant, deleteRestaurant, hfind, hbne]

theorem claimC1_only_owner_may_mutate_witness :
    findOne aDB.restaurants anEditInput.restaurantId = some aRestaurant ∧
    aCaller.id ≠ aRestaurant.ownerId ∧
    ((editRestaurant aCaller anEditInput aDB).1.ok = false ∧
     (editRestaurant aCaller anEditInput aDB).1.err ≠ none ∧
     (editRestaurant aCaller anEditInput aDB).2 = aDB ∧
     (deleteRestaurant aCaller anEditInput.restaurantId aDB).1.ok = false ∧
     (deleteRestaurant aCaller anEditInput.restaurantId aDB).1.err ≠ none ∧
     (deleteRestaurant aCaller anEditInput.restaurantId aDB).2 = aDB) :=
  ⟨by decide, by decide,
   claimC1_only_owner_may_mutate aCaller anEditInput aDB aRestaurant
     (by decide) (by decide)⟩

/-- Claim C6: for every restaurant id absent from the store, editRestaurant,
deleteRestaurant and findRestaurantById each return an envelope with
ok = false and the non-null NotFound err, and perform no write (the store is
returned unchanged; findRestaurantById takes no store writes at all). -/
theorem claimC6_absent_id (owner : User) (input : EditRestaurantInput) (db : DB)
    (hfind : findOne db.restaurants input.restaurantId = none) :
    (editRestaurant owner input db).1.ok = false ∧
    (editRestaurant owner input db).1.err = some "Restaurant not found" ∧
    (editRestaurant owner input db).2 = db ∧
    (deleteRestaurant owner input.restaurantId db).1.ok = false ∧
    (deleteRestaurant owner input.restaurantId db).1.err = some "Restaurant not found" ∧
    (deleteRestaurant owner input.restaurantId db).2 = db ∧
    (findRestaurantById input.restaurantId db).ok = false ∧
    (findRestaurantById input.restaurantId db).err = some "Restaurant not found" := by
  refine ⟨?_, ?_, ?_, ?_, ?_, ?_, ?_, ?_⟩ <;>
    simp [editRestaurant, deleteRestaurant, findRestaurantById, hfind]

theorem claimC6_absent_id_witness :
    findOne aDB.restaurants aMissingEditInput.restaurantId = none ∧
    ((editRestaurant aCaller aMissingEditInput aDB).1.ok = false ∧
     (editRestaurant aCaller aMissingEditInput aDB).1.err = some "Restaurant not found" ∧
     (editRestaurant aCaller aMissingEditInput aDB).2 = aDB ∧
     (deleteRestaurant aCaller aMissingEditInput.restaurantId aDB).1.ok = false ∧
     (deleteRestaurant aCaller aMissingEditInput.restaurantId aDB).1.err =
       some "Restaurant not found" ∧
     (deleteRestaurant aCaller aMissingEditInput.restaurantId aDB).2 = aDB ∧
     (findRestaurantById aMissingEditInput.restaurantId aDB).ok = false ∧
     (findRestaurantById aMissingEditInput.restaurantId aDB).err =
       some "Restaurant not found") :=
  ⟨by decide, claimC6_absent_id aCaller aMissingEditInput aDB (by decide)⟩

/-- Claim C2: for every page N ≥ 1 and every store contents, the paginated
listings (list of all restaurants, listing-by-category) return at most 25
items, take the items at 1-indexed offset (N-1)*25, and report
totalPages = ceil(totalCount/25) computed from the total result count. -/
theorem claimC2_pagination (page : Nat) (db : DB) (hp : 1 ≤ page) :
    ((allResturants page db).ok = true ∧
     (allResturants page db).results =
       some ((db.restaurants.drop ((page - 1) * 25)).take 25) ∧
     (∀ rs, (allResturants page db).results = some rs → rs.length ≤ 25) ∧
     (allResturants page db).totalPages =
       some ⌈(db.restaurants.length : ℚ) / 25⌉₊ ∧
     (allResturants page db).totalResults = some db.restaurants.length) ∧
    (∀ slug category,
      db.categories.find? (fun c => c.slug == slug) = some category →
        (findCategoryBySlug slug page db).ok = true ∧
        (findCategoryBySlug slug page db).restaurants =
          some (((db.restaurants.filter
            (fun r => r.categoryId == category.id)).drop ((page - 1) * 25)).take 25) ∧
        (∀ rs, (findCategoryBySlug slug page db).restaurants = some rs →
          rs.length ≤ 25) ∧
        (findCategoryBySlug slug page db).totalPages =
          some ⌈(countRestaurants db category : ℚ) / 25⌉₊) := by
  constructor
  · refine ⟨rfl, rfl, ?_, ?_, rfl⟩
    · intro rs hrs
      have : rs = paginate db.restaurants page := by
        simpa [allResturants] using hrs.symm
      rw [this]
      exact List.length_take_le 25 _
    · show some (ceilPages db.restaurants.length) = _
      rw [ceilPages_eq_ceil]
  · intro slug category hfind
    refine ⟨?_, ?_, ?_, ?_⟩
    · simp only [findCategoryBySlug, hfind]
    · simp only [findCategoryBySlug, hfind]
      rfl
    · simp only [findCategoryBySlug, hfind]
      intro rs hrs
      have h2 : rs = paginate (db.restaurants.filter
          (fun r => r.categoryId == category.id)) page := by
        simpa using hrs.symm
      rw [h2]
      exact List.length_take_le 25 _
    · simp only [findCategoryBySlug, hfind]
      rw [ceilPages_eq_ceil]

theorem claimC2_pagination_witness :
    (1 : Nat) ≤ 1 ∧
    (((allResturants 1 aDB).ok = true ∧
      (allResturants 1 aDB).results =
        some ((aDB.restaurants.drop ((1 - 1) * 25)).take 25) ∧
      (∀ rs, (allResturants 1 aDB).results = some rs → rs.length ≤ 25) ∧
      (allResturants 1 aDB).totalPages =
        some ⌈(aDB.restaurants.length : ℚ) / 25⌉₊ ∧
      (allResturants 1 aDB).totalResults = some aDB.restaurants.length) ∧
     (∀ slug category,
       aDB.categories.find? (fun c => c.slug == slug) = some category →
         (findCategoryBySlug slug 1 aDB).ok = true ∧
         (findCategoryBySlug slug 1 aDB).restaurants =
           some (((aDB.restaurants.filter
             (fun r => r.categoryId == category.id)).drop ((1 - 1) * 25)).take 25) ∧
         (∀ rs, (findCategoryBySlug slug 1 aDB).restaurants = some rs →
           rs.length ≤ 25) ∧
         (findCategoryBySlug slug 1 aDB).totalPages =
           some ⌈(countRestaurants aDB category : ℚ) / 25⌉₊)) :=
  ⟨by decide, claimC2_pagination 1 aDB (by decide)⟩

theorem getOrCreate_slug (name : String) (db : DB) :
    (getOrCreate name db).1.slug = slugOf name := by
  cases hfind : db.categories.find? (fun c => c.slug == slugOf name) with
  | some c =>
    have h2 : c.slug = slugOf name := by simpa using List.find?_some hfind
    simp [getOrCreate, hfind, h2]
  | none => simp [getOrCreate, hfind]

theorem getOrCreate_keeps_restaurants (name : String) (db : DB) :
    (getOrCreate name db).2.restaurants = db.restaurants ∧
    (getOrCreate name db).2.nextRestaurantId = db.nextRestaurantId := by
  cases hfind : db.categories.find? (fun c => c.slug == slugOf name) with
  | some c => simp [getOrCreate, hfind]
  | none => simp [getOrCreate, hfind]

theorem verifyEmail_not_found (code : String) (db : AccountDB)
    (hfind : db.verifications.find? (fun w => w.code == code) = none) :
    verifyEmail code db = ({ ok := false, err := some "Verification not found." }, db) := by
  simp [verifyEmail, hfind]

theorem findOne_map_update (rows : List Restaurant) (rid : Nat) (r u : Restaurant)
    (hu : u.id = r.id) (hfind : findOne rows rid = some r) :
    findOne (rows.map (fun x => if x.id == rid then u else x)) rid = some u := by
  unfold findOne at hfind ⊢
  induction rows with
  | nil => simp at hfind
  | cons a rows ih =>
    rw [List.map_cons]
    by_cases ha : (a.id == rid) = true
    · have hpos : List.find? (fun x => x.id == rid) (a :: rows) = some a :=
        List.find?_cons_of_pos _ ha
      rw [hpos] at hfind
      have hra : r = a := (Option.some.inj hfind).symm
      have hu2 : (u.id == rid) = true := by
        rw [hu, hra]
        exact ha
      rw [if_pos ha]
      exact List.find?_cons_of_pos _ hu2
    · have hneg : List.find? (fun x => x.id == rid) (a :: rows) =
          List.find? (fun x => x.id == rid) rows :=
        List.find?_cons_of_neg _ (by simpa using ha)
      rw [hneg] at hfind
      rw [if_neg (by simpa using ha)]
      have hgoal : List.find? (fun x => x.id == rid)
          (a :: rows.map (fun x => if x.id == rid then u else x)) =
          List.find? (fun x => x.id == rid)
            (rows.map (fun x => if x.id == rid then u else x)) :=
        List.find?_cons_of_neg _ (by simpa using ha)
      rw [hgoal]
      exact ih hfind

/-- A sample account owning the sample verification. -/
def anAccount : Account := { id := 7, email := "test@email.com", verified := false }

/-- A sample pending verification for that account. -/
def aVerification : Verification := { code := "secret", accountId := 7 }

/-- A sample account store with one account and one pending verification. -/
def anAccountDB : AccountDB :=
  { accounts := [anAccount], verifications := [aVerification] }

/-- A sample create-restaurant input. -/
def aCreateInput : CreateRestaurantInput :=
  { name := "New Place", coverImg := "img2", address := "addr2",
    categoryName := "Fast Food" }

/-- The owner of the sample restaurant. -/
def theOwner : User := { id := 2 }

/-- Claim C3: verifying with a correct, still-pending code succeeds
(ok = true), marks the owning account verified, and deletes the Verification
record, so a second attempt with that same code, or any attempt with an
unknown code, returns ok = false with a non-null err; a code never succeeds
twice. -/
theorem claimC3_verify_once (db : AccountDB) (code badCode : String)
    (v : Verification)
    (hfind : db.verifications.find? (fun w => w.code == code) = some v)
    (hbad : db.verifications.find? (fun w => w.code == badCode) = none) :
    (verifyEmail code db).1.ok = true ∧
    (∀ a ∈ (verifyEmail code db).2.accounts, a.id = v.accountId → a.verified = true) ∧
    (verifyEmail code db).2.verifications.find? (fun w => w.code == code) = none ∧
    (verifyEmail code (verifyEmail code db).2).1.ok = false ∧
    (verifyEmail code (verifyEmail code db).2).1.err ≠ none ∧
    (verifyEmail badCode db).1.ok = false ∧
    (verifyEmail badCode db).1.err ≠ none := by
  have hdel : ((verifyEmail code db).2.verifications).find?
      (fun w => w.code == code) = none := by
    simp only [verifyEmail, hfind]
    rw [List.find?_eq_none]
    intro x hx
    rw [List.mem_filter] at hx
    simpa using hx.2
  refine ⟨?_, ?_, hdel, ?_, ?_, ?_, ?_⟩
  · simp [verifyEmail, hfind]
  · intro a ha hid
    simp only [verifyEmail, hfind] at ha
    rw [List.mem_map] at ha
    obtain ⟨b, hb, hab⟩ := ha
    by_cases hbid : (b.id == v.accountId) = true
    · rw [if_pos hbid] at hab
      rw [← hab]
    · rw [if_neg (by simpa using hbid)] at hab
      rw [← hab] at hid
      exact absurd (by simpa using hid) (by simpa using hbid)
  · rw [verifyEmail_not_found code _ hdel]
  · rw [verifyEmail_not_found code _ hdel]
    simp
  · rw [verifyEmail_not_found badCode db hbad]
  · rw [verifyEmail_not_found badCode db hbad]
    simp

theorem claimC3_verify_once_witness :
    anAccountDB.verifications.find? (fun w => w.code == "secret") =
      some aVerification ∧
    anAccountDB.verifications.find? (fun w => w.code == "x") = none ∧
    ((verifyEmail "secret" anAccountDB).1.ok = true ∧
     (∀ a ∈ (verifyEmail "secret" anAccountDB).2.accounts,
       a.id = aVerification.accountId → a.verified = true) ∧
     (verifyEmail "secret" anAccountDB).2.verifications.find?
       (fun w => w.code == "secret") = none ∧
     (verifyEmail "secret" (verifyEmail "secret" anAccountDB).2).1.ok = false ∧
     (verifyEmail "secret" (verifyEmail "secret" anAccountDB).2).1.err ≠ none ∧
     (verifyEmail "x" anAccountDB).1.ok = false ∧
     (verifyEmail "x" anAccountDB).1.err ≠ none) :=
  ⟨by decide, by decide,
   claimC3_verify_once anAccountDB "secret" "x" aVerification (by decide) (by decide)⟩

/-- Claim C5: for every pair of calls getOrCreate(name1), getOrCreate(name2)
where name1 and name2 normalize to the same slug (lowercased, spaces replaced
by dashes), both calls return the same category row and the second call
creates no new row (the store after the second call is the store after the
first); a name whose slug already exists never produces a duplicate
category. -/
theorem claimC5_getOrCreate_no_duplicate (name1 name2 : String) (db : DB)
    (hslug : slugOf name1 = slugOf name2) :
    (getOrCreate name2 (getOrCreate name1 db).2).1 = (getOrCreate name1 db).1 ∧
    (getOrCreate name2 (getOrCreate name1 db).2).2 = (getOrCreate name1 db).2 := by
  cases hfind : db.categories.find? (fun c => c.slug == slugOf name1) with
  | some c =>
    have hfind2 : db.categories.find? (fun c => c.slug == slugOf name2) = some c := by
      rw [← hslug]
      exact hfind
    constructor <;> simp [getOrCreate, hfind, hfind2]
  | none =>
    have hfindb : db.categories.find? (fun c => c.slug == slugOf name2) = none := by
      rw [← hslug]
      exact hfind
    constructor <;> simp [getOrCreate, hfind, hfindb, hslug]

theorem claimC5_getOrCreate_no_duplicate_witness :
    slugOf "Fast Food" = slugOf "FAST food" ∧
    ((getOrCreate "FAST food" (getOrCreate "Fast Food" aDB).2).1 =
       (getOrCreate "Fast Food" aDB).1 ∧
     (getOrCreate "FAST food" (getOrCreate "Fast Food" aDB).2).2 =
       (getOrCreate "Fast Food" aDB).2) :=
  ⟨by decide, claimC5_getOrCreate_no_duplicate "Fast Food" "FAST food" aDB (by decide)⟩

/-- Claim C7: for every owner and input, createRestaurant resolves or creates
the Category named by the input, attaches the caller as owner, and persists
the restaurant returning ok = true; if any storage step raises, it returns
ok = false with one generic error message that does not distinguish the root
cause, and never propagates the exception to the caller (it is total and
always returns an envelope). -/
theorem claimC7_create (owner : User) (input : CreateRestaurantInput) (db : DB) :
    ((createRestaurant owner input db false false).1.ok = true ∧
     (createRestaurant owner input db false false).1.err = none ∧
     (∃ r, (createRestaurant owner input db false false).2.restaurants =
         db.restaurants ++ [r] ∧
       r.ownerId = owner.id ∧ r.name = input.name ∧ r.coverImg = input.coverImg ∧
       r.address = input.address ∧
       r.categoryId = (getOrCreate input.categoryName db).1.id ∧
       (getOrCreate input.categoryName db).1.slug = slugOf input.categoryName)) ∧
    (∀ getOrCreateThrows saveThrows : Bool,
      (getOrCreateThrows || saveThrows) = true →
        (createRestaurant owner input db getOrCreateThrows saveThrows).1.ok = false ∧
        (createRestaurant owner input db getOrCreateThrows saveThrows).1.err =
          some "Could not create restaurant") := by
  constructor
  · refine ⟨rfl, rfl, ?_⟩
    refine ⟨{ id := (getOrCreate input.categoryName db).2.nextRestaurantId,
              name := input.name, coverImg := input.coverImg,
              address := input.address, ownerId := owner.id,
              categoryId := (getOrCreate input.categoryName db).1.id },
            ?_, rfl, rfl, rfl, rfl, rfl, getOrCreate_slug _ _⟩
    show (getOrCreate input.categoryName db).2.restaurants ++ [_] =
      db.restaurants ++ [_]
    rw [(getOrCreate_keeps_restaurants input.categoryName db).1]
  · intro getOrCreateThrows saveThrows h
    cases getOrCreateThrows with
    | true => exact ⟨rfl, rfl⟩
    | false =>
      cases saveThrows with
      | true => exact ⟨rfl, rfl⟩
      | false => simp at h

theorem claimC7_create_witness :
    (true || false) = true ∧
    ((createRestaurant aCaller aCreateInput aDB true false).1.ok = false ∧
     (createRestaurant aCaller aCreateInput aDB true false).1.err =
       some "Could not create restaurant") :=
  ⟨by decide, (claimC7_create aCaller aCreateInput aDB).2 true false (by decide)⟩

/-- Claim C8: for every successful editRestaurant call by the owner, the
restaurant's category is changed only if the input supplies a category name
(otherwise the category is unchanged), and every restaurant field not
supplied in the input keeps its previous value (the save merges only the
supplied fields); the owner of the restaurant is never changed. -/
theorem claimC8_partial_merge (owner : User) (input : EditRestaurantInput)
    (db : DB) (restaurant : Restaurant)
    (hfind : findOne db.restaurants input.restaurantId = some restaurant)
    (hown : owner.id = restaurant.ownerId) :
    (editRestaurant owner input db).1.ok = true ∧
    ∃ u, findOne (editRestaurant owner input db).2.restaurants
        input.restaurantId = some u ∧
      u.ownerId = restaurant.ownerId ∧
      (input.categoryName = none → u.categoryId = restaurant.categoryId) ∧
      (input.name = none → u.name = restaurant.name) ∧
      (input.coverImg = none → u.coverImg = restaurant.coverImg) ∧
      (input.address = none → u.address = restaurant.address) := by
  have hbne : (owner.id != restaurant.ownerId) = false := by simp [hown]
  cases hcat : input.categoryName with
  | none =>
    refine ⟨?_, mergeEdit restaurant input none, ?_, rfl, fun _ => rfl,
      fun h => by simp [mergeEdit, h],
      fun h => by simp [mergeEdit, h],
      fun h => by simp [mergeEdit, h]⟩
    · simp [editRestaurant, hfind, hbne, hcat]
    · have hgoal : (editRestaurant owner input db).2.restaurants =
          db.restaurants.map
            (fun x => if x.id == input.restaurantId
              then mergeEdit restaurant input none else x) := by
        simp [editRestaurant, hfind, hbne, hcat]
      rw [hgoal]
      exact findOne_map_update db.restaurants input.restaurantId restaurant _ rfl hfind
  | some categoryName =>
    refine ⟨?_, mergeEdit restaurant input (some (getOrCreate categoryName db).1),
      ?_, rfl,
      fun h => Option.noConfusion h,
      fun h => by simp [mergeEdit, h],
      fun h => by simp [mergeEdit, h],
      fun h => by simp [mergeEdit, h]⟩
    · simp [editRestaurant, hfind, hbne, hcat]
    · have hgoal : (editRestaurant owner input db).2.restaurants =
          db.restaurants.map
            (fun x => if x.id == input.restaurantId
              then mergeEdit restaurant input (some (getOrCreate categoryName db).1)
              else x) := by
        have hkeep := (getOrCreate_keeps_restaurants categoryName db).1
        simp [editRestaurant, hfind, hbne, hcat, hkeep]
      rw [hgoal]
      exact findOne_map_update db.restaurants input.restaurantId restaurant _ rfl hfind

theorem claimC8_partial_merge_witness :
    findOne aDB.restaurants anEditInput.restaurantId = some aRestaurant ∧
    theOwner.id = aRestaurant.ownerId ∧
    ((editRestaurant theOwner anEditInput aDB).1.ok = true ∧
     ∃ u, findOne (editRestaurant theOwner anEditInput aDB).2.restaurants
         anEditInput.restaurantId = some u ∧
       u.ownerId = aRestaurant.ownerId ∧
       (anEditInput.categoryName = none → u.categoryId = aRestaurant.categoryId) ∧
       (anEditInput.name = none → u.name = aRestaurant.name) ∧
       (anEditInput.coverImg = none → u.coverImg = aRestaurant.coverImg) ∧
       (anEditInput.address = none → u.address = aRestaurant.address)) :=
  ⟨by decide, by decide,
   claimC8_partial_merge theOwner anEditInput aDB aRestaurant (by decide) (by decide)⟩

/-- The one-restaurant store of the search counterexample. -/
def cexRestaurant : Restaurant :=
  { id := 1, name := "ab", coverImg := "i", address := "a",
    ownerId := 1, categoryId := 1 }

/-- A store holding only `cexRestaurant`. -/
def cexDB : DB :=
  { restaurants := [cexRestaurant], categories := [],
    nextRestaurantId := 2, nextCategoryId := 1 }

/-- Claim C4, amended: for every query string containing no SQL LIKE
pattern metacharacter (no percent, no underscore, and no backslash — the
default escape character) and every page ≥ 1, searchRestaurantByName returns
ok = true with exactly the restaurants whose name contains the query as a
case-insensitive substring, under the same 25-per-page pagination contract;
when no restaurant matches, it returns ok = true with an empty restaurant
list, not a failure.  (A wildcard character in the query acts as a wildcard
of the interpolated ILIKE pattern, not as a literal — see the
counterexample — and a backslash escapes the character after it instead of
matching literally.) -/
theorem claimC4_search (query : String) (page : Nat) (db : DB)
    (hp : 1 ≤ page) (hq : ∀ c ∈ query.data, c ≠ '%' ∧ c ≠ '_' ∧ c ≠ '\\') :
    (searchRestaurantByName query page db).ok = true ∧
    (searchRestaurantByName query page db).err = none ∧
    (searchRestaurantByName query page db).restaurants =
      some (((db.restaurants.filter
        (fun r => containsCI query.data r.name.data)).drop
          ((page - 1) * 25)).take 25) ∧
    (searchRestaurantByName query page db).totalResults =
      some (db.restaurants.filter
        (fun r => containsCI query.data r.name.data)).length ∧
    (searchRestaurantByName query page db).totalPages =
      some ⌈((db.restaurants.filter
        (fun r => containsCI query.data r.name.data)).length : ℚ) / 25⌉₊ ∧
    (∀ r : Restaurant, containsCI query.data r.name.data = true ↔
      ∃ pre post, r.name.data.map Char.toLower =
        pre ++ query.data.map Char.toLower ++ post) ∧
    (db.restaurants.filter (fun r => containsCI query.data r.name.data) = [] →
      (searchRestaurantByName query page db).restaurants = some []) := by
  have hfilter : db.restaurants.filter (nameMatchesQuery query) =
      db.restaurants.filter (fun r => containsCI query.data r.name.data) := by
    apply List.filter_congr
    intro r hr
    exact likeMatches_contains query.data hq r.name.data
  refine ⟨rfl, rfl, ?_, ?_, ?_, ?_, ?_⟩
  · show some (paginate (db.restaurants.filter (nameMatchesQuery query)) page) = _
    rw [hfilter]
    rfl
  · show some (db.restaurants.filter (nameMatchesQuery query)).length = _
    rw [hfilter]
  · show some (ceilPages (db.restaurants.filter (nameMatchesQuery query)).length) = _
    rw [hfilter, ceilPages_eq_ceil]
  · intro r
    exact containsCI_iff query.data r.name.data
  · intro hempty
    show some (paginate (db.restaurants.filter (nameMatchesQuery query)) page) = _
    rw [hfilter, hempty]
    simp [paginate]

theorem claimC4_search_witness :
    (1 : Nat) ≤ 1 ∧
    (∀ c ∈ "bob".data, c ≠ '%' ∧ c ≠ '_' ∧ c ≠ '\\') ∧
    ((searchRestaurantByName "bob" 1 aDB).ok = true ∧
     (searchRestaurantByName "bob" 1 aDB).err = none ∧
     (searchRestaurantByName "bob" 1 aDB).restaurants =
       some (((aDB.restaurants.filter
         (fun r => containsCI "bob".data r.name.data)).drop ((1 - 1) * 25)).take 25) ∧
     (searchRestaurantByName "bob" 1 aDB).totalResults =
       some (aDB.restaurants.filter
         (fun r => containsCI "bob".data r.name.data)).length ∧
     (searchRestaurantByName "bob" 1 aDB).totalPages =
       some ⌈((aDB.restaurants.filter
         (fun r => containsCI "bob".data r.name.data)).length : ℚ) / 25⌉₊ ∧
     (∀ r : Restaurant, containsCI "bob".data r.name.data = true ↔
       ∃ pre post, r.name.data.map Char.toLower =
         pre ++ "bob".data.map Char.toLower ++ post) ∧
     (aDB.restaurants.filter (fun r => containsCI "bob".data r.name.data) = [] →
       (searchRestaurantByName "bob" 1 aDB).restaurants = some [])) :=
  ⟨by decide, by decide, claimC4_search "bob" 1 aDB (by decide) (by decide)⟩

/-- Claim C4 counterexample: at the query consisting of one underscore, the
service returns the restaurant named "ab" (the interpolated ILIKE pattern
treats the underscore as a one-character wildcard, matching any nonempty
name), although that query is not a substring of "ab"; so the returned list
is not the list of case-insensitive-substring matches the claim promises for
every query string. -/
theorem claimC4_search_counterexample :
    ¬ ((searchRestaurantByName "_" 1 cexDB).restaurants =
       some (((cexDB.restaurants.filter
         (fun r => containsCI "_".data r.name.data)).drop ((1 - 1) * 25)).take 25)) := by
  decide

/-- Sample provider options for the email witnesses. -/
def anOptions : EmailModuleOptions := { apiKey := "key", domain := "example.com" }

/-- A provider that always raises. -/
def aFailingPost : PostOutcome := fun _ => Except.error "provider down"

/-- Claim C9: for every subject, template and variable list, sendEmail never
raises to its caller (both revisions are total functions into plain values):
a provider failure is either swallowed — only logged — by the first revision
or reported as the boolean false by the second, and in either revision
sendVerificationEmail, hence the parent operation calling it (e.g. account
creation), is never failed by an email failure; on success the boolean
revision returns true. -/
theorem claimC9_sendEmail_never_raises (options : EmailModuleOptions)
    (subject template : String) (emailVars : List EmailVar) (post : PostOutcome) :
    ((sendEmailLogged options subject template emailVars post).1 = ()) ∧
    (post (buildForm options subject template emailVars) = Except.ok () →
      sendEmailBool options subject template emailVars post = true) ∧
    (∀ e, post (buildForm options subject template emailVars) = Except.error e →
      sendEmailBool options subject template emailVars post = false ∧
      (sendEmailLogged options subject template emailVars post).2 = some e) ∧
    (∀ email code, sendVerificationEmail options email code post = ()) := by
  refine ⟨rfl, ?_, ?_, fun _ _ => rfl⟩
  · intro h
    simp [sendEmailBool, h]
  · intro e h
    constructor
    · simp [sendEmailBool, h]
    · simp [sendEmailLogged, h]

theorem claimC9_sendEmail_never_raises_witness :
    aFailingPost (buildForm anOptions "Verify Your Email" "confirm_email" []) =
      Except.error "provider down" ∧
    (sendEmailBool anOptions "Verify Your Email" "confirm_email" [] aFailingPost =
      false ∧
     (sendEmailLogged anOptions "Verify Your Email" "confirm_email" []
       aFailingPost).2 = some "provider down") :=
  ⟨rfl,
   (claimC9_sendEmail_never_raises anOptions "Verify Your Email" "confirm_email"
     [] aFailingPost).2.2.1 "provider down" rfl⟩

/-- Claim C10 (implicit): for every email argument and code, the form posted
by sendVerificationEmail(email, code) is addressed to the fixed hardcoded
recipient 012h21l@gmail.com, not to the given email; the email argument
influences only the username template variable, so two calls differing only
in the email argument post to the same recipient (and the same form apart
from that one variable). -/
theorem claimC10_hardcoded_recipient (options : EmailModuleOptions)
    (email1 email2 code : String) :
    (verificationForm options email1 code).toAddr = "012h21l@gmail.com" ∧
    (verificationForm options email1 code).toAddr =
      (verificationForm options email2 code).toAddr ∧
    (verificationForm options email1 code).fromAddr =
      (verificationForm options email2 code).fromAddr ∧
    (verificationForm options email1 code).subject =
      (verificationForm options email2 code).subject ∧
    (verificationForm options email1 code).template =
      (verificationForm options email2 code).template ∧
    (verificationForm options email1 code).vars.filter
        (fun kv => kv.1 != "v:username") =
      (verificationForm options email2 code).vars.filter
        (fun kv => kv.1 != "v:username") ∧
    (verificationForm options email1 code).vars =
      [("v:code", code), ("v:username", email1)] := by
  refine ⟨rfl, rfl, rfl, rfl, rfl, ?_, rfl⟩
  show List.filter _ [("v:code", code), ("v:username", email1)] =
    List.filter _ [("v:code", code), ("v:username", email2)]
  simp [List.filter]

end NuberEats
